import Mathlib

set_option linter.unusedVariables false

/-!
A verification development for the core of a streaming markdown parser:
shallow Lean embeddings of the tokenizer engine (`src/tokenizer.rs`), the
document container driver (`src/construct/document.rs`) and the event-skip
utility (`src/util/skip.rs`), with theorems about the snapshot/rollback
discipline of `attempt`/`check`, position accounting in `consume`, the
container slot-swap of the document driver, resolver registration, and
state-result normalisation.

Rust `Vec` operations are modelled on `List`, `HashMap<usize, usize>` as an
association list with insert-shadowing, `usize` arithmetic as `Nat`
(truncated subtraction; all subtractions in the modelled code paths are
guarded so that no Rust underflow panic is reachable in the theorems below),
assertion failures / panics as `Option.none` results, and boxed state
closures as functions stored inside an inductive `State`.  Loops whose
termination is not structural in the Rust source carry an explicit fuel
parameter; exhausting fuel yields `Option.none`, and every theorem supplies
ample fuel, so the fuelled functions agree with the source on the runs the
theorems speak about.
-/

/-- Code is a logical input unit (tokenizer.rs, `enum Code`): `none` is the
end of the input stream (`Code::None`), `crlf` is `CarriageReturnLineFeed`,
`virtualSpace` pads a tab expansion, `char c` an ordinary character. -/
inductive Code where
  | none
  | crlf
  | virtualSpace
  | char (c : Char)
  deriving DecidableEq

/-- Point is a location in the document (tokenizer.rs, `struct Point`):
1-indexed `line` and `column`, 0-indexed byte `offset`. -/
structure Point where
  line : Nat
  column : Nat
  offset : Nat
  deriving DecidableEq

/-- TokenType is the semantic label of a span (tokenizer.rs,
`enum TokenType`), with the variants in source order. -/
inductive TokenType where
  | Autolink
  | AutolinkEmail
  | AutolinkMarker
  | AutolinkProtocol
  | BlankLineEnding
  | CharacterEscape
  | CharacterEscapeMarker
  | CharacterEscapeValue
  | CharacterReference
  | CharacterReferenceMarker
  | CharacterReferenceMarkerHexadecimal
  | CharacterReferenceMarkerNumeric
  | CharacterReferenceMarkerSemi
  | CharacterReferenceValue
  | CodeFenced
  | CodeFencedFence
  | CodeFencedFenceInfo
  | CodeFencedFenceMeta
  | CodeFencedFenceSequence
  | CodeFlowChunk
  | CodeIndented
  | CodeText
  | CodeTextData
  | CodeTextLineEnding
  | CodeTextSequence
  | Data
  | Definition
  | DefinitionDestination
  | DefinitionDestinationLiteral
  | DefinitionDestinationLiteralMarker
  | DefinitionDestinationRaw
  | DefinitionDestinationString
  | DefinitionLabel
  | DefinitionLabelMarker
  | DefinitionLabelString
  | DefinitionMarker
  | DefinitionTitle
  | DefinitionTitleMarker
  | DefinitionTitleString
  | HardBreakEscape
  | HardBreakEscapeMarker
  | HardBreakTrailing
  | HardBreakTrailingSpace
  | HeadingAtx
  | HeadingAtxSequence
  | HeadingAtxText
  | HeadingSetext
  | HeadingSetextText
  | HeadingSetextUnderline
  | HtmlFlow
  | HtmlFlowData
  | HtmlText
  | HtmlTextData
  | Image
  | Label
  | LabelEnd
  | LabelImage
  | LabelImageMarker
  | LabelLink
  | LabelMarker
  | LabelText
  | LineEnding
  | Link
  | Paragraph
  | Reference
  | ReferenceMarker
  | ReferenceString
  | Resource
  | ResourceDestination
  | ResourceDestinationLiteral
  | ResourceDestinationLiteralMarker
  | ResourceDestinationRaw
  | ResourceDestinationString
  | ResourceMarker
  | ResourceTitle
  | ResourceTitleMarker
  | ResourceTitleString
  | SpaceOrTab
  | ThematicBreak
  | ThematicBreakSequence
  | Strong
  | StrongSequence
  | StrongText
  | Emphasis
  | EmphasisSequence
  | EmphasisText
  | AttentionSequence
  | BlockQuote
  | BlockQuoteMarker
  | BlockQuotePrefix
  | BlockQuotePrefixWhitespace
  deriving DecidableEq

/-- ContentType is the embedded content type (tokenizer.rs,
`enum ContentType`). -/
inductive ContentType where
  | Flow
  | Text
  | String
  deriving DecidableEq

/-- EventType says whether an event opens or closes a span (tokenizer.rs,
`enum EventType`). -/
inductive EventType where
  | Enter
  | Exit
  deriving DecidableEq

/-- Event is something semantic happening somewhere (tokenizer.rs,
`struct Event`). -/
structure Event where
  event_type : EventType
  token_type : TokenType
  point : Point
  index : Nat
  previous : Option Nat
  next : Option Nat
  content_type : Option ContentType
  deriving DecidableEq

/-- LabelStart is a loose label start (tokenizer.rs, `struct LabelStart`). -/
structure LabelStart where
  start : Nat × Nat
  inactive : Bool
  balanced : Bool
  deriving DecidableEq

/-- Media is a found image or link (tokenizer.rs, `struct Media`). -/
structure Media where
  start : Nat × Nat
  stop : Nat × Nat
  id : String
  deriving DecidableEq

/-- InternalState is the snapshot captured by `attempt`/`check`
(tokenizer.rs, `struct InternalState`).  Note that it records only the
LENGTHS of `events` and `stack`, and does not record the `consumed` flag. -/
structure InternalState where
  events_len : Nat
  stack_len : Nat
  previous : Code
  current : Code
  index : Nat
  point : Point
  deriving DecidableEq

/-- Tokenizer state (tokenizer.rs, `struct Tokenizer`).  The `column_start`
`HashMap<usize, usize>` is modelled as an association list whose lookup takes
the most recent insertion; `resolvers` holds opaque tags standing for the
boxed resolver closures, in the list order the Rust `Vec` has, parallel to
`resolver_ids`; the shared `parse_state` reference is not modelled (none of
the embedded operations touch it). -/
structure Tokenizer where
  column_start : List (Nat × Nat)
  consumed : Bool
  drained : Bool
  events : List Event
  stack : List TokenType
  previous : Code
  current : Code
  index : Nat
  point : Point
  resolvers : List Nat
  resolver_ids : List String
  label_start_stack : List LabelStart
  label_start_list_loose : List LabelStart
  media_list : List Media
  interrupt : Bool
  lazy : Bool
  deriving DecidableEq

/-- Insertion into the modelled `column_start` map: the new binding shadows
any earlier binding of the same key, like `HashMap::insert`. -/
def map_insert (m : List (Nat × Nat)) (k v : Nat) : List (Nat × Nat) :=
  (k, v) :: m

/-- Lookup in the modelled `column_start` map, like `HashMap::get`. -/
def map_get (m : List (Nat × Nat)) (k : Nat) : Option Nat :=
  (m.find? (fun p => p.1 == k)).map (fun p => p.2)

/-- Tokenizer construction (tokenizer.rs, `Tokenizer::new`). -/
def Tokenizer.new (point : Point) (index : Nat) : Tokenizer where
  previous := Code.none
  current := Code.none
  column_start := []
  index := index
  consumed := true
  drained := false
  point := point
  stack := []
  events := []
  label_start_stack := []
  label_start_list_loose := []
  media_list := []
  interrupt := false
  lazy := false
  resolvers := []
  resolver_ids := []

/-- Register a resolver (tokenizer.rs, `Tokenizer::register_resolver`):
appended at the end, unless the id is already present. -/
def Tokenizer.register_resolver (t : Tokenizer) (id : String) (resolver : Nat) :
    Tokenizer :=
  if id ∈ t.resolver_ids then t
  else { t with resolver_ids := t.resolver_ids ++ [id],
                resolvers := t.resolvers ++ [resolver] }

/-- Register a resolver before the others (tokenizer.rs,
`Tokenizer::register_resolver_before`): the resolver is inserted at the
front of `resolvers` (the id is still pushed at the back of
`resolver_ids`), unless the id is already present. -/
def Tokenizer.register_resolver_before (t : Tokenizer) (id : String)
    (resolver : Nat) : Tokenizer :=
  if id ∈ t.resolver_ids then t
  else { t with resolver_ids := t.resolver_ids ++ [id],
                resolvers := resolver :: t.resolvers }

/-- Prepare for a next code to get consumed (tokenizer.rs,
`Tokenizer::expect`): asserts that the previous code was consumed
(`Option.none` models the assertion failure). -/
def Tokenizer.expect (t : Tokenizer) (code : Code) : Option Tokenizer :=
  if t.consumed then Option.some { t with consumed := false, current := code }
  else Option.none

/-- Increment the positional info right after a line ending that has a skip
defined (tokenizer.rs, `Tokenizer::account_for_potential_skip`).  The Rust
`col - 1` is `usize` subtraction of a 1-based column; `Nat` truncated
subtraction agrees on every registered (hence positive) column. -/
def account_for_potential_skip (t : Tokenizer) : Tokenizer :=
  if t.point.column = 1 then
    match map_get t.column_start t.point.line with
    | Option.none => t
    | Option.some col =>
      { t with
        point := { t.point with column := col, offset := t.point.offset + (col - 1) },
        index := t.index + (col - 1) }
  else t

/-- Define a jump between two places (tokenizer.rs,
`Tokenizer::define_skip`). -/
def Tokenizer.define_skip (t : Tokenizer) (point : Point) : Tokenizer :=
  account_for_potential_skip
    { t with column_start := map_insert t.column_start point.line point.column }

/-- Consume the current character (tokenizer.rs, `Tokenizer::consume`).
The two Rust assertions (the given code equals the expected code; the code
was not consumed yet) are modelled by returning `Option.none`.  The match
mirrors the source arms: the line-ending arm
(`CarriageReturnLineFeed | Char('\n' | 'r')`), the `VirtualSpace` arm, and
the default arm, which also receives `Code::None`. -/
def Tokenizer.consume (t : Tokenizer) (code : Code) : Option Tokenizer :=
  if code = t.current ∧ t.consumed = false then
    let t1 :=
      if code = Code.crlf ∨ code = Code.char '\n' ∨ code = Code.char '\r' then
        account_for_potential_skip
          { t with point :=
            { line := t.point.line + 1
              column := 1
              offset := t.point.offset + (if code = Code.crlf then 2 else 1) } }
      else if code = Code.virtualSpace then
        t
      else
        { t with point :=
          { t.point with column := t.point.column + 1, offset := t.point.offset + 1 } }
    Option.some { t1 with index := t1.index + 1, previous := code, consumed := true }
  else Option.none

/-- Mark the start of a semantic label (tokenizer.rs,
`Tokenizer::enter_with_content`). -/
def Tokenizer.enter_with_content (t : Tokenizer) (token_type : TokenType)
    (content_type : Option ContentType) : Tokenizer :=
  { t with
    events := t.events ++
      [{ event_type := EventType.Enter
         token_type := token_type
         point := t.point
         index := t.index
         previous := Option.none
         next := Option.none
         content_type := content_type }]
    stack := t.stack ++ [token_type] }

/-- Mark the start of a semantic label (tokenizer.rs, `Tokenizer::enter`). -/
def Tokenizer.enter (t : Tokenizer) (token_type : TokenType) : Tokenizer :=
  t.enter_with_content token_type Option.none

/-- Mark the end of a semantic label (tokenizer.rs, `Tokenizer::exit`).
The three assertions of the source (`cannot close w/o open tokens`,
`expected exit token to match current token` joined with
`cannot close w/o open event`, and `expected non-empty token`) are modelled
by `Option.none`. -/
def Tokenizer.exit (t : Tokenizer) (token_type : TokenType) : Option Tokenizer :=
  match t.stack.getLast? with
  | Option.none => Option.none
  | Option.some current_token =>
    if current_token = token_type then
      match t.events.getLast? with
      | Option.none => Option.none
      | Option.some previous =>
        if current_token ≠ previous.token_type ∨ previous.index ≠ t.index then
          Option.some
            { t with
              stack := t.stack.dropLast
              events := t.events ++
                [{ event_type := EventType.Exit
                   token_type := token_type
                   point := t.point
                   index := t.index
                   previous := Option.none
                   next := Option.none
                   content_type := Option.none }] }
        else Option.none
    else Option.none

/-- Capture the internal state (tokenizer.rs, `Tokenizer::capture`). -/
def Tokenizer.capture (t : Tokenizer) : InternalState where
  index := t.index
  previous := t.previous
  current := t.current
  point := t.point
  events_len := t.events.length
  stack_len := t.stack.length

/-- Apply a captured internal state (tokenizer.rs, `Tokenizer::free`):
position, previous and current code are reset from the snapshot, `events`
and `stack` are truncated to the captured lengths.  The two assertions
(events and stack may not have shrunk below the captured lengths) are
modelled by `Option.none`.  The `consumed` flag is not part of the snapshot
and is left untouched. -/
def Tokenizer.free (t : Tokenizer) (previous : InternalState) : Option Tokenizer :=
  if previous.events_len ≤ t.events.length ∧ previous.stack_len ≤ t.stack.length then
    Option.some
      { t with
        index := previous.index
        previous := previous.previous
        current := previous.current
        point := previous.point
        events := t.events.take previous.events_len
        stack := t.stack.take previous.stack_len }
  else Option.none

/-- State is the result of a state function (tokenizer.rs, `enum State`):
either a boxed next state function, success, or failure.  A state function
(`StateFn`) takes the tokenizer and a code and yields a `StateFnResult`;
`Option.none` models a panic inside the state function. -/
inductive State where
  | fn (f : Tokenizer → Code → Option (Tokenizer × (State × Option (List Code))))
  | ok
  | nok

/-- StateFn mirrors tokenizer.rs `type StateFn`, with the tokenizer threaded
explicitly in place of `&mut`. -/
abbrev StateFn := Tokenizer → Code → Option (Tokenizer × (State × Option (List Code)))

/-- StateFnResult mirrors tokenizer.rs `type StateFnResult`. -/
abbrev StateFnResult := State × Option (List Code)

/-- Normalise a state-function result (tokenizer.rs,
`check_statefn_result`): one trailing `Code::None` is popped from the
remainder, and a remainder that is (or becomes) empty is replaced by no
remainder at all. -/
def check_statefn_result : StateFnResult → StateFnResult
  | (state, Option.some list) =>
    let list := if list.getLast? = Option.some Code.none then list.dropLast else list
    if list.isEmpty then (state, Option.none) else (state, Option.some list)
  | r => r

/-- DoneFn is the type of the `done` callback threaded through
`attempt_impl` (tokenizer.rs, the closure argument of `attempt_impl`). -/
abbrev DoneFn :=
  List Code × List Code → Bool → Tokenizer → State → Option (Tokenizer × StateFnResult)

/-- Internal utility wrapping states to also capture codes (tokenizer.rs,
`attempt_impl`).  The recursion of the source (re-wrapping the next state
function) is bounded here by `fuel`; exhausting it yields `Option.none`.
The source's `assert!(list.len() <= codes.len())` on a returned remainder
and `assert!(remainder.is_none())` in the `State::Fn` arm are modelled by
`Option.none`. -/
def attempt_impl (fuel : Nat) (state : StateFn) (pause : Code → Bool)
    (codes : List Code) (done : DoneFn) : StateFn :=
  fun tokenizer code =>
    if codes ≠ [] ∧ pause tokenizer.previous = true then
      done (codes, [code]) false { tokenizer with consumed := true } (State.fn state)
    else
      match state tokenizer code with
      | Option.none => Option.none
      | Option.some (tokenizer, result) =>
        let next := (check_statefn_result result).1
        let remainder := (check_statefn_result result).2
        let codes := if code = Code.none then codes else codes ++ [code]
        match remainder with
        | Option.some list =>
          if list.length ≤ codes.length then
            match next with
            | State.ok =>
              (done (codes, list) true tokenizer State.ok).map
                (fun r => (r.1, check_statefn_result r.2))
            | State.nok =>
              (done (codes, []) false tokenizer State.nok).map
                (fun r => (r.1, check_statefn_result r.2))
            | State.fn _ => Option.none
          else Option.none
        | Option.none =>
          match next with
          | State.ok =>
            (done (codes, []) true tokenizer State.ok).map
              (fun r => (r.1, check_statefn_result r.2))
          | State.nok =>
            (done (codes, []) false tokenizer State.nok).map
              (fun r => (r.1, check_statefn_result r.2))
          | State.fn func =>
            match fuel with
            | 0 => Option.none
            | Nat.succ fuel =>
              Option.some
                (tokenizer, (State.fn (attempt_impl fuel func pause codes done),
                  Option.none))

/-- The `while index < codes.len()` loop of tokenizer.rs `feed_impl`,
with the loop index explicit and `fuel` bounding the number of iterations
(the source loop need not structurally terminate, because a state may pass
codes back as a remainder, rewinding the index). -/
def feed_loop (fuel : Nat) (tokenizer : Tokenizer) (codes : List Code)
    (index : Nat) (state : State) : Option (Tokenizer × State × Nat) :=
  match codes.get? index with
  | Option.none => Option.some (tokenizer, state, index)
  | Option.some code =>
    match state with
    | State.ok => Option.some (tokenizer, state, index)
    | State.nok => Option.some (tokenizer, state, index)
    | State.fn func =>
      match fuel with
      | 0 => Option.none
      | Nat.succ fuel =>
        match tokenizer.expect code with
        | Option.none => Option.none
        | Option.some tokenizer =>
          match func tokenizer code with
          | Option.none => Option.none
          | Option.some (tokenizer, result) =>
            let next := (check_statefn_result result).1
            let rlen := ((check_statefn_result result).2.map List.length).getD 0
            if rlen ≤ index + 1 then
              feed_loop fuel tokenizer codes (index + 1 - rlen) next
            else Option.none

/-- The EOF loop of tokenizer.rs `feed_impl` used when draining: feed
`Code::None` until the state settles.  A final `State::Nok` hits the
source's `unreachable!`, modelled by `Option.none`. -/
def drain_loop (fuel : Nat) (tokenizer : Tokenizer) (state : State) :
    Option (Tokenizer × StateFnResult) :=
  match state with
  | State.ok => Option.some (tokenizer, (State.ok, Option.none))
  | State.nok => Option.none
  | State.fn func =>
    match fuel with
    | 0 => Option.none
    | Nat.succ fuel =>
      match tokenizer.expect Code.none with
      | Option.none => Option.none
      | Option.some tokenizer =>
        match func tokenizer Code.none with
        | Option.none => Option.none
        | Option.some (tokenizer, result) =>
          if (check_statefn_result result).2 = Option.none then
            drain_loop fuel tokenizer (check_statefn_result result).1
          else Option.none

/-- Feed a list of codes into a start state (tokenizer.rs, `feed_impl`):
sets `consumed`, runs the loop, and either yields the suspended state with
the unfed codes as remainder (when not draining) or feeds EOFs until done. -/
def feed_impl (fuel : Nat) (tokenizer : Tokenizer) (codes : List Code)
    (start : StateFn) (drain : Bool) : Option (Tokenizer × StateFnResult) :=
  match feed_loop fuel { tokenizer with consumed := true } codes 0 (State.fn start) with
  | Option.none => Option.none
  | Option.some (tokenizer, state, index) =>
    if drain then drain_loop fuel tokenizer state
    else Option.some (tokenizer, check_statefn_result (state, Option.some (codes.drop index)))

/-- The `done` callback that `Tokenizer::attempt` installs (tokenizer.rs,
`attempt`, the closure passed to `attempt_impl`): on failure the snapshot is
applied, then the chosen codes (all captured codes on failure, the remaining
codes on success) are fed to the continuation chosen by the outcome. -/
def attempt_done (fuel : Nat) (previous : InternalState) (done : Bool → StateFn) :
    DoneFn :=
  fun result ok tokenizer _state =>
    match (if ok then Option.some tokenizer else tokenizer.free previous) with
    | Option.none => Option.none
    | Option.some tokenizer =>
      feed_impl fuel tokenizer (if ok then result.2 else result.1) (done ok) false

/-- Parse with a state function, reverting on `Nok` (tokenizer.rs,
`Tokenizer::attempt`): captures the snapshot and wraps the state function
with `attempt_impl`.  The receiver is returned unchanged alongside the
wrapped state function, mirroring that the Rust method does not mutate
`self`. -/
def Tokenizer.attempt (fuel : Nat) (t : Tokenizer) (state_fn : StateFn)
    (done : Bool → StateFn) : Tokenizer × StateFn :=
  (t, attempt_impl fuel state_fn (fun _ => false) []
        (attempt_done fuel (Tokenizer.capture t) done))

/-- The `done` callback that `Tokenizer::check` installs (tokenizer.rs,
`check`, the closure passed to `attempt_impl`): the snapshot is always
applied, and all captured codes are fed to the continuation chosen by the
outcome. -/
def check_done (fuel : Nat) (previous : InternalState) (done : Bool → StateFn) :
    DoneFn :=
  fun result ok tokenizer _state =>
    match tokenizer.free previous with
    | Option.none => Option.none
    | Option.some tokenizer =>
      feed_impl fuel tokenizer result.1 (done ok) false

/-- Parse with a state function, reverting always (tokenizer.rs,
`Tokenizer::check`). -/
def Tokenizer.check (fuel : Nat) (t : Tokenizer) (state_fn : StateFn)
    (done : Bool → StateFn) : Tokenizer × StateFn :=
  (t, attempt_impl fuel state_fn (fun _ => false) []
        (check_done fuel (Tokenizer.capture t) done))

/-- Just like `attempt`, but many (tokenizer.rs, `Tokenizer::attempt_n`):
with no state functions left, the failure continuation is yielded directly;
otherwise the first is attempted, falling through to the rest on failure. -/
def Tokenizer.attempt_n (fuel : Nat) (t : Tokenizer) (state_fns : List StateFn)
    (done : Bool → StateFn) : Tokenizer × StateFn :=
  match state_fns with
  | [] => (t, done false)
  | state_fn :: rest =>
    Tokenizer.attempt fuel t state_fn (fun ok =>
      if ok then done ok
      else fun t' code => (Tokenizer.attempt_n fuel t' rest done).2 t' code)

/-- Reference run of the inner state function of an `attempt`/`check`,
stated over the same steps the engine performs (an `expect`, the state
function, `check_statefn_result`, the code accumulation of `attempt_impl`):
it yields `some (ok, tokenizer, captured, remaining)` when the state chain
settles to `Ok`/`Nok` exactly on the last fed code, accumulating the
captured codes, and `Option.none` otherwise. -/
def inner_run (state : StateFn) (tokenizer : Tokenizer) (feed : List Code)
    (codes : List Code) : Option (Bool × Tokenizer × List Code × List Code) :=
  match feed with
  | [] => Option.none
  | code :: rest =>
    match tokenizer.expect code with
    | Option.none => Option.none
    | Option.some tokenizer =>
      match state tokenizer code with
      | Option.none => Option.none
      | Option.some (tokenizer, result) =>
        let next := (check_statefn_result result).1
        let remainder := (check_statefn_result result).2
        let codes := if code = Code.none then codes else codes ++ [code]
        match remainder with
        | Option.some list =>
          if list.length ≤ codes.length then
            match next with
            | State.ok =>
              if rest = [] then Option.some (true, tokenizer, codes, list)
              else Option.none
            | State.nok =>
              if rest = [] then Option.some (false, tokenizer, codes, [])
              else Option.none
            | State.fn _ => Option.none
          else Option.none
        | Option.none =>
          match next with
          | State.ok =>
            if rest = [] then Option.some (true, tokenizer, codes, [])
            else Option.none
          | State.nok =>
            if rest = [] then Option.some (false, tokenizer, codes, [])
            else Option.none
          | State.fn func => inner_run func tokenizer rest codes

/-- Container kind (document driver; the `Container` enum is imported by
document.rs from the tokenizer module, which is absent from the provided
sources).  Modelled from the spec: `kind: BlockQuote|ListItem`. -/
inductive Container where
  | blockQuote
  | listItem
  deriving DecidableEq

/-- ContainerState is the state of an open container.  Modelled from the
spec: `{ kind: BlockQuote|ListItem, blank_initial: bool, size: usize }`
(the `ContainerState` struct is imported by document.rs from a module
absent from the provided sources). -/
structure ContainerState where
  kind : Container
  blank_initial : Bool
  size : Nat
  deriving DecidableEq

/-- StateName for the document driver (document.rs imports
`crate::state::Name`, absent from the provided sources).  Modelled from the
spec/usage: only the names the embedded fragment of document.rs inspects are
distinguished; every other state name is collapsed into `otherName`. -/
inductive StateName where
  | flowStart
  | paragraphInside
  | otherName (n : Nat)
  deriving DecidableEq

/-- DocumentState for the document driver (document.rs imports
`crate::state::State`, absent from the provided sources).  Modelled from the
spec/usage: `Next`, `Retry`, `Ok`, `Nok`. -/
inductive DocumentState where
  | next (name : StateName)
  | retry (name : StateName)
  | ok
  | nok
  deriving DecidableEq

/-- Kind of a document event (document.rs imports `crate::event::Kind`,
absent from the provided sources; modelled from usage: `Enter`/`Exit`). -/
inductive DocKind where
  | enter
  | exit
  deriving DecidableEq

/-- EventName of a document event (document.rs imports
`crate::event::Name`, absent from the provided sources).  Modelled from
usage: only the names the embedded fragment of document.rs inspects are
distinguished; every other name is collapsed into `otherEvent`. -/
inductive EventName where
  | data
  | lineEnding
  | blankLineEnding
  | paragraph
  | blockQuote
  | listItem
  | otherEvent (n : Nat)
  deriving DecidableEq

/-- DocEvent is a document-driver event (document.rs imports
`crate::event::Event`; modelled from usage with the fields the embedded
fragment reads: kind, name and point; the `link` field plays no role in the
embedded code paths). -/
structure DocEvent where
  kind : DocKind
  name : EventName
  point : Point
  deriving DecidableEq

/-- The inner `loop` of skip.rs `skip_opt_with_direction` in the backward
direction: walk down from `index` until the event with the given name is
found, then step once more past it.  The unbounded Rust loop is bounded by
`fuel` (the callers below pass ample fuel: the index decreases at every
iteration). -/
def skip_inner_back (fuel : Nat) (events : List DocEvent) (index : Nat)
    (current : EventName) : Nat :=
  match fuel with
  | 0 => index
  | Nat.succ fuel =>
    match events.get? index with
    | Option.none => index
    | Option.some e =>
      if e.name = current then index - 1
      else skip_inner_back fuel events (index - 1) current

/-- The outer `while` of skip.rs `skip_opt_with_direction` in the backward
direction (skip.rs `opt_back`): while the event at `index` has one of the
given names, walk backward over that whole span, then look again. -/
def skip_opt_back_go (fuel : Nat) (events : List DocEvent) (index : Nat)
    (types : List EventName) : Nat :=
  match fuel with
  | 0 => index
  | Nat.succ fuel =>
    match events.get? index with
    | Option.none => index
    | Option.some e =>
      if types.contains e.name then
        skip_opt_back_go fuel events
          (skip_inner_back (index + 1) events (index - 1) e.name) types
      else index

/-- Skip backward over events with the given names (skip.rs, `opt_back`). -/
def skip_opt_back (events : List DocEvent) (index : Nat)
    (types : List EventName) : Nat :=
  skip_opt_back_go (events.length + 1) events index types

/-- Phases where containers can be exited (document.rs, `enum Phase`). -/
inductive DocPhase where
  | after
  | prefixPhase
  | eof
  deriving DecidableEq

/-- Document-driver fields of the top tokenizer's `tokenize_state`
(document.rs reads and writes these fields; the surrounding `TokenizeState`
struct is absent from the provided sources, the fields are modelled from
usage and the spec's driver-state list). -/
structure DocTokState where
  document_container_stack : List ContainerState
  document_continued : Nat
  document_exits : List (Option (List DocEvent))
  document_paragraph_before : Bool
  document_child_state : Option DocumentState
  interrupt : Bool
  deriving DecidableEq

/-- Exit event name for a container kind (document.rs, the `match
container.kind` inside `exit_containers`). -/
def container_exit_name : Container → EventName
  | Container.blockQuote => EventName.blockQuote
  | Container.listItem => EventName.listItem

/-- Remove the last occurrence of a name from the open-token stack
(document.rs, the `while stack_index > 0` search inside `exit_containers`);
`Option.none` models the `debug_assert!(found)` failing. -/
def remove_last (stack : List EventName) (n : EventName) : Option (List EventName) :=
  match (stack.reverse.findIdx? (fun m => m = n)) with
  | Option.none => Option.none
  | Option.some i => Option.some ((stack.reverse.eraseIdx i).reverse)

/-- The `while !stack_close.is_empty()` loop of document.rs
`exit_containers`, processing the closed containers from the end of the
split-off stack (`pop`) and removing each exited name from the open-token
stack; the argument is already reversed into pop order. -/
def exits_loop (point : Point) : List ContainerState → List EventName →
    Option (List DocEvent × List EventName)
  | [], tokStack => Option.some ([], tokStack)
  | c :: rest, tokStack =>
    match remove_last tokStack (container_exit_name c.kind) with
    | Option.none => Option.none
    | Option.some tokStack =>
      match exits_loop point rest tokStack with
      | Option.none => Option.none
      | Option.some (evs, tokStack) =>
        Option.some
          ({ kind := DocKind.exit, name := container_exit_name c.kind,
             point := point } :: evs, tokStack)

/-- Close containers (document.rs, `exit_containers`): the containers
beyond `document_continued` are split off the container stack, exit events
for them (in pop order) are recorded in the per-line `document_exits` slot
selected by the phase, and each name is removed from the open-token stack.
The child flush performed when the phase is not `After` only drives the
child tokenizer (whose flow state machine is outside the modelled sources)
and is not reflected in the fields modelled here; out-of-range slot access
models the Rust panic as `Option.none`. -/
def exit_containers (d : DocTokState) (phase : DocPhase) (tokPoint : Point)
    (tokStack : List EventName) : Option (DocTokState × List EventName) :=
  let stack_close := d.document_container_stack.drop d.document_continued
  let d := { d with document_container_stack :=
               d.document_container_stack.take d.document_continued }
  if stack_close = [] then Option.some (d, tokStack)
  else
    let index := d.document_exits.length - (if phase = DocPhase.after then 2 else 1)
    match exits_loop tokPoint stack_close.reverse tokStack with
    | Option.none => Option.none
    | Option.some (exits, tokStack) =>
      match d.document_exits.get? index with
      | Option.none => Option.none
      | Option.some slot =>
        Option.some
          ({ d with document_exits :=
               d.document_exits.set index (Option.some (slot.getD [] ++ exits)) },
           tokStack)

/-- The paragraph test of document.rs `flow_end`: the child's suspended
state is `ParagraphInside`, or the last event of the child that is not part
of a trailing run of `LineEnding` spans is a `Paragraph` event (lazily, as
in the source: the index into `child.events` is only formed when the first
disjunct fails and the events are non-empty; an out-of-range index models
the Rust panic as `Option.none`). -/
def flow_end_paragraph (state : DocumentState) (childEvents : List DocEvent) :
    Option Bool :=
  if state = DocumentState.next StateName.paragraphInside then Option.some true
  else if childEvents.isEmpty then Option.some false
  else
    (childEvents.get?
      (skip_opt_back childEvents (childEvents.length - 1) [EventName.lineEnding])).map
      (fun e => e.name = EventName.paragraph)

/-- After flow (document.rs, `flow_end`).  The call `child.push(..)` drives
the child's flow state machine, which is outside the modelled sources; its
resulting suspended `state` is taken as a parameter, together with the
child's `lazy` flag and accumulated events.  Everything after that call is
modelled: the pushed empty exits slot, the paragraph test, lazy adoption of
all containers, the conditional `exit_containers(After)`, and the per-branch
epilogue (for EOF: reset and `exit_containers(Eof)`; the final `resolve` is
modelled separately by `resolve_append_resolvers`). -/
def flow_end (d : DocTokState) (childLazy : Bool) (childEvents : List DocEvent)
    (state : DocumentState) (tokPoint : Point) (tokStack : List EventName)
    (atEof : Bool) : Option (DocTokState × List EventName × Bool) :=
  let d := { d with document_exits := d.document_exits ++ [Option.none] }
  match flow_end_paragraph state childEvents with
  | Option.none => Option.none
  | Option.some paragraph =>
    let d := { d with document_child_state := Option.some state }
    let d :=
      if childLazy ∧ paragraph ∧ d.document_paragraph_before then
        { d with document_continued := d.document_container_stack.length }
      else d
    match
      (if d.document_continued ≠ d.document_container_stack.length then
        exit_containers d DocPhase.after tokPoint tokStack
      else Option.some (d, tokStack)) with
    | Option.none => Option.none
    | Option.some (d, tokStack) =>
      if atEof then
        match exit_containers { d with document_continued := 0 } DocPhase.eof
            tokPoint tokStack with
        | Option.none => Option.none
        | Option.some (d, tokStack) => Option.some (d, tokStack, paragraph)
      else
        Option.some
          ({ d with document_continued := 0,
                    document_paragraph_before := paragraph,
                    interrupt := false },
           tokStack, paragraph)

/-- Swap of two vector slots (Rust `Vec::swap` as used by document.rs
`container_new_before`; both indices are in range at the call sites
reasoned about below, so the out-of-range fallback never fires there). -/
def vec_swap {α : Type} (l : List α) (i j : Nat) : List α :=
  match l.get? i, l.get? j with
  | Option.some a, Option.some b => (l.set i b).set j a
  | _, _ => l

/-- Rust `Vec::swap_remove`: replace slot `i` with the last element and pop
the last element (in range at the call sites reasoned about below). -/
def swap_remove {α : Type} (l : List α) (i : Nat) : List α :=
  match l.getLast? with
  | Option.none => l
  | Option.some last => if i < l.length then (l.set i last).dropLast else l

/-- The stack manipulation of document.rs `container_new_before` (lines
pushing the tentative block-quote container at the tail and swapping it
into position `document_continued`). -/
def container_new_before_stack (d : DocTokState) : DocTokState :=
  let tail := d.document_container_stack.length
  let stack := d.document_container_stack ++
    [{ kind := Container.blockQuote, blank_initial := false, size := 0 }]
  { d with document_container_stack := vec_swap stack d.document_continued tail }

/-- At new container (document.rs, `container_new_before`): when all
containers continued, the flow's past interrupt status is restored and a
concrete construct in the child blocks new containers (yielding `false`,
for `State::Retry(DocumentContainersAfter)`); otherwise the tentative
block-quote container is slot-swapped in and the block-quote start is
attempted (yielding `true`). -/
def container_new_before (d : DocTokState) (childInterrupt childConcrete : Bool) :
    DocTokState × Bool :=
  if d.document_continued = d.document_container_stack.length then
    let d := { d with interrupt := childInterrupt }
    if childConcrete then (d, false)
    else (container_new_before_stack d, true)
  else (container_new_before_stack d, true)

/-- At new container, but not a block quote (document.rs,
`container_new_before_not_block_quote`): the tentative slot is overwritten
with a fresh list-item container. -/
def container_new_before_not_block_quote (d : DocTokState) : DocTokState :=
  let li : ContainerState :=
    { kind := Container.listItem, blank_initial := false, size := 0 }
  { d with document_container_stack :=
      d.document_container_stack.set d.document_continued li }

/-- At new container, but neither a block quote nor a list (document.rs,
`container_new_before_not_list`): the tentative container is
swap-removed, returning the displaced existing container to its slot. -/
def container_new_before_not_list (d : DocTokState) : DocTokState :=
  { d with document_container_stack :=
      swap_remove d.document_container_stack d.document_continued }

/-- The resolver hand-over of document.rs `resolve`:
`tokenizer.resolvers.append(&mut child.resolvers.split_off(0))` — the
child's resolver list is drained and appended after the parent's, with the
resolvers named by their ids. -/
def resolve_append_resolvers (parent child : List String) : List String :=
  parent ++ child

/-- The definition hand-over of document.rs `resolve`:
`definitions.append(&mut child...definitions.split_off(0))`. -/
def resolve_append_definitions (parent child : List String) : List String :=
  parent ++ child

/-- Normalising a result with no remainder changes nothing. -/
lemma check_statefn_result_none (s : State) :
    check_statefn_result (s, Option.none) = (s, Option.none) := rfl

/-- Normalising a result with an empty remainder drops the remainder. -/
lemma check_statefn_result_nil (s : State) :
    check_statefn_result (s, Option.some ([] : List Code)) = (s, Option.none) := rfl

/-- C9: For every tokenizer, calling `attempt_n` with an empty vector of
state functions immediately yields the failure continuation `done false`,
without consuming any code and without changing events, stack, or position:
the tokenizer is returned untouched, paired with `done false` itself. -/
theorem c9_attempt_n_empty (fuel : Nat) (t : Tokenizer) (done : Bool → StateFn) :
    Tokenizer.attempt_n fuel t [] done = (t, done false) := rfl

/-- C10 counterexample: a remainder ending in two `End` codes is normalised
to a remainder that still ends with the `End` code, because only one
trailing `End` is popped — refuting, at this input, that the remainder
never ends with the `End` code. -/
theorem c10_counterexample :
    (check_statefn_result (State.ok, Option.some [Code.none, Code.none])).2
        = Option.some [Code.none]
      ∧ [Code.none].getLast? = Option.some Code.none :=
  ⟨rfl, rfl⟩

/-- C10 (amended): `check_statefn_result` passes the state through, never
yields an empty remainder list, and pops one trailing `End` code — so the
result never ends with `End` provided the input remainder did not end with
two consecutive `End` codes. -/
theorem c10_normalised_remainder (state : State) (rem : Option (List Code)) :
    (check_statefn_result (state, rem)).1 = state ∧
    (∀ l, (check_statefn_result (state, rem)).2 = Option.some l →
      l ≠ [] ∧
      (∀ l0, rem = Option.some l0 →
        ¬ (l0.getLast? = Option.some Code.none ∧
            l0.dropLast.getLast? = Option.some Code.none) →
        l.getLast? ≠ Option.some Code.none)) := by
  cases rem with
  | none => exact ⟨rfl, by intro l h; cases h⟩
  | some l0 =>
    constructor
    · simp only [check_statefn_result]
      split_ifs <;> rfl
    · intro l h
      simp only [check_statefn_result] at h
      split_ifs at h with h1 h2 h2
      · injection h with h
        subst h
        constructor
        · intro hc
          rw [hc] at h2
          simp at h2
        · intro l1 h1' hno
          cases h1'
          intro hbad
          exact hno ⟨h1, hbad⟩
      · injection h with h
        subst h
        constructor
        · intro hc
          rw [hc] at h2
          simp at h2
        · intro l1 h1' hno
          exact h1

/-- C10 witness: the amended normalisation applied at a concrete result. -/
theorem c10_normalised_remainder_witness :
    (check_statefn_result (State.ok, Option.some [Code.char 'a', Code.none])).2
        = Option.some [Code.char 'a']
      ∧ [Code.char 'a'] ≠ [] :=
  ⟨rfl, ((c10_normalised_remainder State.ok
      (Option.some [Code.char 'a', Code.none])).2 [Code.char 'a'] rfl).1⟩

/-- The skip adjustment a line-ending consumption picks up: the registered
column for the next line minus one, or zero when no skip is registered. -/
def next_line_skip (t : Tokenizer) : Nat :=
  match map_get t.column_start (t.point.line + 1) with
  | Option.some col => col - 1
  | Option.none => 0

/-- C3 counterexample: consuming the `End` code (`Code::None`) advances the
byte offset by 1, because `Code::None` falls into the default arm of the
`consume` match — refuting, at this input, that the offset does not advance
for the `End` code. -/
theorem c3_counterexample :
    Tokenizer.consume { (Tokenizer.new ⟨1, 1, 0⟩ 0) with consumed := false } Code.none
        = Option.some { (Tokenizer.new ⟨1, 1, 0⟩ 0) with point := ⟨1, 2, 1⟩, index := 1 }
      ∧ ({ (Tokenizer.new ⟨1, 1, 0⟩ 0) with consumed := false } : Tokenizer).point.offset = 0
      ∧ ({ (Tokenizer.new ⟨1, 1, 0⟩ 0) with point := ⟨1, 2, 1⟩, index := 1 } : Tokenizer).point.offset = 1 :=
  ⟨rfl, rfl, rfl⟩

/-- C3 (amended): for every successful `consume`, the byte offset advances
by exactly 2 for the CRLF code and by exactly 1 for a `'\n'`/`'\r'` char —
each additionally advanced by the registered line-start skip column minus 1
for the new line, when one is registered — by exactly 1 for any other
`Char` code AND for the `End` code (which falls into the default arm), and
not at all for `VirtualSpace`, for which only the logical index advances
while point stays unchanged. -/
theorem c3_consume_offset (t : Tokenizer) (code : Code) (t' : Tokenizer)
    (h : Tokenizer.consume t code = Option.some t') :
    (code = Code.crlf →
      t'.point.offset = t.point.offset + 2 + next_line_skip t) ∧
    (code = Code.char '\n' ∨ code = Code.char '\r' →
      t'.point.offset = t.point.offset + 1 + next_line_skip t) ∧
    (∀ c, code = Code.char c → c ≠ '\n' → c ≠ '\r' →
      t'.point.offset = t.point.offset + 1 ∧ t'.point.column = t.point.column + 1) ∧
    (code = Code.none → t'.point.offset = t.point.offset + 1) ∧
    (code = Code.virtualSpace → t'.point = t.point ∧ t'.index = t.index + 1) := by
  unfold Tokenizer.consume at h
  by_cases hcond : (code = t.current ∧ t.consumed = false)
  case neg => rw [if_neg hcond] at h; cases h
  rw [if_pos hcond] at h
  refine ⟨?_, ?_, ?_, ?_, ?_⟩
  · rintro rfl
    rw [if_pos (Or.inl rfl)] at h
    simp only [account_for_potential_skip] at h
    cases hskip : map_get t.column_start (t.point.line + 1) with
    | none =>
      simp [hskip] at h
      subst h
      simp [next_line_skip, hskip]
    | some col =>
      simp [hskip] at h
      subst h
      simp [next_line_skip, hskip]
  · rintro (rfl | rfl)
    · rw [if_pos (Or.inr (Or.inl rfl))] at h
      simp only [account_for_potential_skip] at h
      cases hskip : map_get t.column_start (t.point.line + 1) with
      | none =>
        simp [hskip] at h
        subst h
        simp [next_line_skip, hskip]
      | some col =>
        simp [hskip] at h
        subst h
        simp [next_line_skip, hskip]
    · rw [if_pos (Or.inr (Or.inr rfl))] at h
      simp only [account_for_potential_skip] at h
      cases hskip : map_get t.column_start (t.point.line + 1) with
      | none =>
        simp [hskip] at h
        subst h
        simp [next_line_skip, hskip]
      | some col =>
        simp [hskip] at h
        subst h
        simp [next_line_skip, hskip]
  · rintro c rfl hn hr
    have h1 : ¬(Code.char c = Code.crlf ∨ Code.char c = Code.char '\n' ∨
        Code.char c = Code.char '\r') := by simp [hn, hr]
    have h2 : Code.char c ≠ Code.virtualSpace := by simp
    rw [if_neg h1, if_neg h2] at h
    simp at h
    subst h
    exact ⟨rfl, rfl⟩
  · rintro rfl
    have h1 : ¬(Code.none = Code.crlf ∨ Code.none = Code.char '\n' ∨
        Code.none = Code.char '\r') := by simp
    have h2 : Code.none ≠ Code.virtualSpace := by simp
    rw [if_neg h1, if_neg h2] at h
    simp at h
    subst h
    rfl
  · rintro rfl
    have h1 : ¬(Code.virtualSpace = Code.crlf ∨ Code.virtualSpace = Code.char '\n' ∨
        Code.virtualSpace = Code.char '\r') := by simp
    rw [if_neg h1, if_pos rfl] at h
    simp at h
    subst h
    exact ⟨rfl, rfl⟩

/-- C3 witness: the amended offset accounting applied at a concrete
consumption of a virtual space. -/
def c3w_before : Tokenizer :=
  { (Tokenizer.new ⟨1, 3, 2⟩ 5) with
      current := Code.virtualSpace
      consumed := false }

def c3w_after : Tokenizer :=
  { (Tokenizer.new ⟨1, 3, 2⟩ 5) with
      current := Code.virtualSpace
      consumed := true
      index := 6
      previous := Code.virtualSpace }

theorem c3_consume_offset_witness :
    c3w_after.point = c3w_before.point ∧ c3w_after.index = c3w_before.index + 1 := by
  have h := (c3_consume_offset c3w_before Code.virtualSpace c3w_after rfl).2.2.2.2 rfl
  exact ⟨h.1, h.2⟩

/-- C4: after consuming a line-ending code the line number increases by 1,
and the column becomes the `column_start` skip registered for the new line
when one exists — with the byte offset and the codes index each additionally
advanced by that skip column minus 1 — and otherwise the column becomes 1. -/
theorem c4_consume_eol (t : Tokenizer) (code : Code) (t' : Tokenizer)
    (heol : code = Code.crlf ∨ code = Code.char '\n' ∨ code = Code.char '\r')
    (h : Tokenizer.consume t code = Option.some t') :
    t'.point.line = t.point.line + 1 ∧
    (∀ col, map_get t.column_start (t.point.line + 1) = Option.some col →
      t'.point.column = col ∧
      t'.point.offset
        = t.point.offset + (if code = Code.crlf then 2 else 1) + (col - 1) ∧
      t'.index = t.index + (col - 1) + 1) ∧
    (map_get t.column_start (t.point.line + 1) = Option.none →
      t'.point.column = 1 ∧
      t'.point.offset = t.point.offset + (if code = Code.crlf then 2 else 1) ∧
      t'.index = t.index + 1) := by
  unfold Tokenizer.consume at h
  by_cases hcond : (code = t.current ∧ t.consumed = false)
  case neg => rw [if_neg hcond] at h; cases h
  rw [if_pos hcond, if_pos heol] at h
  simp only [account_for_potential_skip] at h
  cases hskip : map_get t.column_start (t.point.line + 1) with
  | none =>
    simp [hskip] at h
    subst h
    refine ⟨by simp, ?_, ?_⟩
    · intro col hcol
      cases hcol
    · intro _
      rcases heol with rfl | rfl | rfl <;> simp
  | some col0 =>
    simp [hskip] at h
    subst h
    refine ⟨by simp, ?_, ?_⟩
    · intro col hcol
      injection hcol with hcol
      subst hcol
      rcases heol with rfl | rfl | rfl <;> simp
    · intro hno
      cases hno

/-- C4 witness: consuming `'\n'` on a tokenizer with a skip of column 3
registered for line 2. -/
def c4w_before : Tokenizer :=
  { (Tokenizer.new ⟨1, 5, 10⟩ 7) with
      column_start := [(2, 3)]
      current := Code.char '\n'
      consumed := false }

def c4w_after : Tokenizer :=
  { (Tokenizer.new ⟨2, 3, 13⟩ 10) with
      column_start := [(2, 3)]
      current := Code.char '\n'
      previous := Code.char '\n' }

theorem c4_consume_eol_witness :
    c4w_after.point.line = c4w_before.point.line + 1
      ∧ c4w_after.point.column = 3 ∧ c4w_after.point.offset = 13 ∧ c4w_after.index = 10 := by
  have h := c4_consume_eol c4w_before (Code.char '\n') c4w_after
    (Or.inr (Or.inl rfl)) rfl
  exact ⟨h.1, (h.2.1 3 rfl).1, by decide, by decide⟩

/-- A list has no last element exactly when it is empty. -/
lemma getLast?_eq_none_iff_nil {α : Type} (l : List α) :
    l.getLast? = Option.none ↔ l = [] := by
  cases l with
  | nil => simp
  | cons a l => simp [List.getLast?_eq_getLast]

/-- C6: `exit name` succeeds — popping the stack and appending an `Exit`
event at the current point and index — exactly when `name` equals the most
recently opened token and the span is non-empty (the last event does not
carry the same token type at the same index); an empty stack, a name
differing from the stack top, or an empty span makes it fail the source
assertions (modelled as `Option.none`), never a recoverable error.  The
hypothesis reflects that `enter` always records an event with each pushed
token, so a tokenizer with open tokens has events. -/
theorem c6_exit_characterisation (t : Tokenizer) (token_type : TokenType)
    (hwf : t.stack ≠ [] → t.events ≠ []) :
    ((Tokenizer.exit t token_type).isSome ↔
      (t.stack.getLast? = Option.some token_type ∧
        ∀ e, t.events.getLast? = Option.some e →
          e.token_type ≠ token_type ∨ e.index ≠ t.index)) ∧
    (∀ t', Tokenizer.exit t token_type = Option.some t' →
      t'.stack = t.stack.dropLast ∧
      t'.events = t.events ++
        [{ event_type := EventType.Exit
           token_type := token_type
           point := t.point
           index := t.index
           previous := Option.none
           next := Option.none
           content_type := Option.none }]) := by
  unfold Tokenizer.exit
  cases hst : t.stack.getLast? with
  | none =>
    dsimp only
    refine ⟨by simp, ?_⟩
    intro t' h
    cases h
  | some cur =>
    have hsne : t.stack ≠ [] := by
      intro hs
      rw [hs] at hst
      cases hst
    have hene : t.events ≠ [] := hwf hsne
    cases hev : t.events.getLast? with
    | none => exact absurd ((getLast?_eq_none_iff_nil t.events).mp hev) hene
    | some prev =>
      dsimp only
      by_cases hct : cur = token_type
      · subst hct
        rw [if_pos rfl]
        by_cases hspan : (cur ≠ prev.token_type ∨ prev.index ≠ t.index)
        · rw [if_pos hspan]
          constructor
          · simp only [Option.isSome_some, true_iff]
            refine ⟨trivial, ?_⟩
            intro e he
            injection he with he
            subst he
            rcases hspan with hs1 | hs2
            · exact Or.inl (fun hx => hs1 hx.symm)
            · exact Or.inr hs2
          · intro t' h
            injection h with h
            subst h
            exact ⟨rfl, rfl⟩
        · rw [if_neg hspan]
          push_neg at hspan
          constructor
          · simp only [Option.isSome_none, Bool.false_eq_true, false_iff]
            intro hcontra
            rcases hcontra.2 prev rfl with hbad | hbad
            · exact hbad hspan.1.symm
            · exact hbad hspan.2
          · intro t' h
            cases h
      · rw [if_neg hct]
        constructor
        · simp only [Option.isSome_none, Bool.false_eq_true, false_iff]
          intro hcontra
          injection hcontra.1 with hx
          exact hct hx
        · intro t' h
          cases h

/-- C6 witness: a concrete open paragraph, exited at a later index. -/
theorem c6_exit_characterisation_witness :
    (Tokenizer.exit
      { (Tokenizer.new ⟨1, 4, 3⟩ 3) with
          stack := [TokenType.Paragraph]
          events := [{ event_type := EventType.Enter
                       token_type := TokenType.Paragraph
                       point := ⟨1, 1, 0⟩
                       index := 0
                       previous := Option.none
                       next := Option.none
                       content_type := Option.none }] }
      TokenType.Paragraph).isSome := by
  apply (c6_exit_characterisation _ TokenType.Paragraph (by intro _; simp)).1.mpr
  refine ⟨rfl, ?_⟩
  intro e he
  injection he with he
  subst he
  exact Or.inr (by decide)

/-- Setting the slot just past a list, addressed by the list's length,
replaces the appended element. -/
lemma list_set_concat_length {α : Type} (s : List α) (a b : α) :
    (s ++ [a]).set s.length b = s ++ [b] := by
  induction s with
  | nil => rfl
  | cons x xs ih =>
    simp only [List.cons_append, List.length_cons, List.set_cons_succ]
    rw [ih]

/-- Setting a slot inside the left part of an append stays in the left
part. -/
lemma list_set_concat_lt {α : Type} (s : List α) (a b : α) (c : Nat)
    (h : c < s.length) :
    (s ++ [a]).set c b = s.set c b ++ [a] := by
  induction s generalizing c with
  | nil => simp at h
  | cons x xs ih =>
    cases c with
    | zero => rfl
    | succ c =>
      simp only [List.cons_append, List.set_cons_succ]
      rw [ih c (by simpa using h)]

/-- Writing back the element a slot already holds changes nothing. -/
lemma list_set_get_self {α : Type} (s : List α) (c : Nat) (x : α)
    (h : s.get? c = Option.some x) : s.set c x = s := by
  induction s generalizing c with
  | nil => cases h
  | cons y ys ih =>
    cases c with
    | zero =>
      injection h with h
      subst h
      rfl
    | succ c =>
      simp only [List.set_cons_succ]
      rw [ih c h]

/-- Setting the slot addressed by any index equal to the list's length. -/
lemma list_set_concat_eq_length {α : Type} (s : List α) (a b : α) (n : Nat)
    (h : n = s.length) : (s ++ [a]).set n b = s ++ [b] := by
  subst h
  exact list_set_concat_length s a b

/-- C7: when neither a block quote start nor a list item start is accepted
at the new-container phase, the container stack after the phase equals the
stack before it, element for element: the tentative container slot-swapped
into position `continued` is discarded by the final `swap_remove`, and the
displaced existing container returns to its original position. -/
theorem c7_slot_swap_restores (d : DocTokState)
    (h : d.document_continued ≤ d.document_container_stack.length) :
    (container_new_before_not_list (container_new_before_not_block_quote
        (container_new_before_stack d))).document_container_stack
      = d.document_container_stack := by
  rcases d with ⟨s, c, ex, pb, cs, ir⟩
  simp only at h
  simp only [container_new_before_stack, container_new_before_not_block_quote,
    container_new_before_not_list]
  rcases Nat.eq_or_lt_of_le h with heq | hlt
  · subst heq
    have h1 : vec_swap
        (s ++ [{ kind := Container.blockQuote, blank_initial := false, size := 0 }])
        s.length s.length
          = s ++ [{ kind := Container.blockQuote, blank_initial := false, size := 0 }] := by
      unfold vec_swap
      rw [List.get?_concat_length]
      simp only
      rw [List.set_set, list_set_concat_length]
    rw [h1, list_set_concat_length]
    unfold swap_remove
    rw [List.getLast?_concat]
    simp only
    rw [if_pos (by simp), list_set_concat_length, List.dropLast_concat]
  · have hx : s.get? c = Option.some (s.get ⟨c, hlt⟩) := List.get?_eq_get hlt
    have h1 : vec_swap
        (s ++ [{ kind := Container.blockQuote, blank_initial := false, size := 0 }])
        c s.length
          = s.set c { kind := Container.blockQuote, blank_initial := false, size := 0 }
              ++ [s.get ⟨c, hlt⟩] := by
      unfold vec_swap
      rw [List.get?_append hlt, hx, List.get?_concat_length]
      simp only
      rw [list_set_concat_lt _ _ _ _ hlt]
      rw [list_set_concat_eq_length _ _ _ _ (by simp)]
    rw [h1]
    rw [list_set_concat_lt _ _ _ _ (by simpa using hlt), List.set_set]
    unfold swap_remove
    rw [List.getLast?_concat]
    simp only
    rw [if_pos (by simp [Nat.lt_succ_of_lt hlt]),
      list_set_concat_lt _ _ _ _ (by simpa using hlt), List.set_set,
      list_set_get_self s c _ hx, List.dropLast_concat]

/-- C7 witness: a block quote at position 0, continued 0, with the
tentative container discarded. -/
theorem c7_slot_swap_restores_witness :
    (container_new_before_not_list (container_new_before_not_block_quote
        (container_new_before_stack
          { document_container_stack :=
              [{ kind := Container.blockQuote, blank_initial := false, size := 2 }]
            document_continued := 0
            document_exits := []
            document_paragraph_before := false
            document_child_state := Option.none
            interrupt := false }))).document_container_stack
      = [{ kind := Container.blockQuote, blank_initial := false, size := 2 }] :=
  c7_slot_swap_restores _ (by decide)

/-- C8 counterexample: the EOF hand-over plainly appends the child's
resolvers to the parent's; when both registered a resolver of the same id,
the combined list holds that id twice — refuting, at this input, that the
result of the append is de-duplicated by id. -/
theorem c8_counterexample :
    resolve_append_resolvers ["attention"] ["attention"]
        = ["attention", "attention"]
      ∧ ¬ (resolve_append_resolvers ["attention"] ["attention"]).Nodup :=
  ⟨rfl, by decide⟩

/-- C8 (amended): registering a resolver whose id is already present — in
either registration order — leaves the tokenizer unchanged (first
registration wins), registration preserves the no-duplicate-ids invariant,
and the EOF hand-over appends the child's resolvers after the parent's
with order preserved but performs no de-duplication. -/
theorem c8_resolver_registration (t : Tokenizer) (id : String) (resolver : Nat)
    (p c : List String) :
    (id ∈ t.resolver_ids →
      Tokenizer.register_resolver t id resolver = t ∧
      Tokenizer.register_resolver_before t id resolver = t) ∧
    (t.resolver_ids.Nodup →
      (Tokenizer.register_resolver t id resolver).resolver_ids.Nodup ∧
      (Tokenizer.register_resolver_before t id resolver).resolver_ids.Nodup) ∧
    resolve_append_resolvers p c = p ++ c := by
  refine ⟨?_, ?_, rfl⟩
  · intro hmem
    unfold Tokenizer.register_resolver Tokenizer.register_resolver_before
    rw [if_pos hmem, if_pos hmem]
    exact ⟨rfl, rfl⟩
  · intro hnd
    unfold Tokenizer.register_resolver Tokenizer.register_resolver_before
    by_cases hmem : id ∈ t.resolver_ids
    · rw [if_pos hmem, if_pos hmem]
      exact ⟨hnd, hnd⟩
    · rw [if_neg hmem, if_neg hmem]
      constructor <;>
      · simp only []
        rw [List.nodup_append]
        exact ⟨hnd, List.nodup_singleton id,
          fun a ha hb => hmem (by rwa [List.mem_singleton.mp hb] at ha)⟩
  

/-- C8 witness: re-registering an already-present id on a concrete
tokenizer changes nothing. -/
theorem c8_resolver_registration_witness :
    Tokenizer.register_resolver
        { (Tokenizer.new ⟨1, 1, 0⟩ 0) with
            resolver_ids := ["attention"]
            resolvers := [7] }
        "attention" 9
      = { (Tokenizer.new ⟨1, 1, 0⟩ 0) with
            resolver_ids := ["attention"]
            resolvers := [7] } :=
  ((c8_resolver_registration
      { (Tokenizer.new ⟨1, 1, 0⟩ 0) with
          resolver_ids := ["attention"]
          resolvers := [7] }
      "attention" 9 [] []).1 (by decide)).1

/-- C2: in the document driver's per-line end phase with more input ahead,
if the child tokenizer was lazy for the line, the line is a paragraph
continuation (`flow_end_paragraph` holds: the child's suspended state is
`ParagraphInside`, or its last non-`LineEnding` event is a `Paragraph`),
and the previously flushed flow line ended inside a paragraph, then the
driver adopts all existing containers (`continued := stack.length`), so the
container stack is untouched, the open-token stack is untouched, and no
container exit events are recorded for the line: the line's exits slot
stays `none` and every earlier slot is unchanged. -/
theorem c2_lazy_continuation (d : DocTokState) (childEvents : List DocEvent)
    (state : DocumentState) (tokPoint : Point) (tokStack : List EventName)
    (hpara : flow_end_paragraph state childEvents = Option.some true)
    (hbefore : d.document_paragraph_before = true) :
    flow_end d true childEvents state tokPoint tokStack false
      = Option.some
          ({ d with
              document_exits := d.document_exits ++ [Option.none]
              document_child_state := Option.some state
              document_continued := 0
              document_paragraph_before := true
              interrupt := false },
           tokStack, true) := by
  unfold flow_end
  rw [hpara]
  simp [hbefore]

/-- C2 witness: a lazy un-prefixed line continuing a paragraph inside a
block quote. -/
theorem c2_lazy_continuation_witness :
    flow_end
        { document_container_stack :=
            [{ kind := Container.blockQuote, blank_initial := false, size := 2 }]
          document_continued := 0
          document_exits := [Option.none]
          document_paragraph_before := true
          document_child_state := Option.none
          interrupt := true }
        true [] (DocumentState.next StateName.paragraphInside) ⟨2, 1, 4⟩
        [EventName.blockQuote] false
      = Option.some
          ({ document_container_stack :=
              [{ kind := Container.blockQuote, blank_initial := false, size := 2 }]
             document_continued := 0
             document_exits := [Option.none, Option.none]
             document_paragraph_before := true
             document_child_state :=
               Option.some (DocumentState.next StateName.paragraphInside)
             interrupt := false },
           [EventName.blockQuote], true) :=
  c2_lazy_continuation _ [] (DocumentState.next StateName.paragraphInside)
    ⟨2, 1, 4⟩ [EventName.blockQuote] rfl rfl

/-- Feeding past the end of the codes returns the suspended state. -/
lemma feed_loop_at_end (fuel : Nat) (t : Tokenizer) (codes : List Code)
    (index : Nat) (state : State) (h : codes.length ≤ index) :
    feed_loop fuel t codes index state = Option.some (t, state, index) := by
  unfold feed_loop
  rw [List.get?_eq_none.mpr h]

/-- Normalisation is idempotent on results it has already cleaned of their
remainder. -/
lemma check_statefn_result_idem (r : StateFnResult)
    (h : (check_statefn_result r).2 = Option.none) :
    check_statefn_result (check_statefn_result r) = check_statefn_result r := by
  have he : check_statefn_result r
      = ((check_statefn_result r).1, (check_statefn_result r).2) := rfl
  rw [he, h]
  exact check_statefn_result_none _

/-- Simulation of a whole `attempt_impl`-wrapped feed: if the inner state
function, fed the suffix of the codes starting at `index`, settles
(`inner_run`), and the installed `done` callback yields a result with no
remainder left over, then the feed of the wrapped state function runs to
the end of the codes and yields exactly the `done` callback's result. -/
lemma attempt_run_sim (suffix : List Code) :
    ∀ (codes : List Code) (index fuelA fuelF : Nat) (inner : StateFn)
      (acc : List Code) (t : Tokenizer) (dn : DoneFn) (okv : Bool)
      (tk t2 : Tokenizer) (captured remaining : List Code) (r2 : StateFnResult),
      codes.drop index = suffix →
      inner_run inner t suffix acc = Option.some (okv, tk, captured, remaining) →
      dn (captured, remaining) okv tk (if okv then State.ok else State.nok)
        = Option.some (t2, r2) →
      (check_statefn_result r2).2 = Option.none →
      suffix.length ≤ fuelA + 1 →
      suffix.length ≤ fuelF →
      feed_loop fuelF t codes index
          (State.fn (attempt_impl fuelA inner (fun _ => false) acc dn))
        = Option.some (t2, (check_statefn_result r2).1, codes.length) := by
  induction suffix with
  | nil =>
    intro codes index fuelA fuelF inner acc t dn okv tk t2 captured remaining r2
      hdrop hrun hdn hcs hfa hff
    simp [inner_run] at hrun
  | cons code rest ih =>
    intro codes index fuelA fuelF inner acc t dn okv tk t2 captured remaining r2
      hdrop hrun hdn hcs hfa hff
    have hget : codes.get? index = Option.some code := by
      have h0 := List.get?_drop codes index 0
      rw [hdrop] at h0
      simpa using h0.symm
    have hdrop1 : codes.drop (index + 1) = rest := by
      have h1 := List.drop_drop 1 index codes
      rw [hdrop] at h1
      simpa [Nat.add_comm] using h1.symm
    have hlen : codes.length = index + 1 + rest.length := by
      have h2 := congrArg List.length hdrop
      simp [List.length_drop] at h2
      omega
    cases fuelF with
    | zero => simp at hff
    | succ fF =>
    unfold feed_loop
    rw [hget]
    dsimp only
    simp only [inner_run] at hrun
    cases hex : t.expect code with
    | none => simp [hex] at hrun
    | some t1 =>
      rw [hex] at hrun
      dsimp only at hrun ⊢
      unfold attempt_impl
      rw [if_neg (by simp)]
      cases hst : inner t1 code with
      | none =>
        rw [hst] at hrun
        simp at hrun
      | some pr =>
        obtain ⟨t2', res⟩ := pr
        rw [hst] at hrun
        dsimp only at hrun ⊢
        rcases hres : check_statefn_result res with ⟨nx, rm⟩
        rw [hres] at hrun
        dsimp only at hrun ⊢
        generalize hacc : (if code = Code.none then acc else acc ++ [code]) = acc2
          at hrun ⊢
        cases rm with
        | some list =>
          dsimp only at hrun ⊢
          by_cases hl2 : list.length ≤ acc2.length
          · rw [if_pos hl2] at hrun ⊢
            cases nx with
            | fn f =>
              try dsimp only at hrun
              cases hrun
            | ok =>
              try dsimp only at hrun ⊢
              by_cases hrest : rest = []
              · rw [if_pos hrest] at hrun
                try dsimp only at hrun
                simp only [Option.some.injEq, Prod.mk.injEq] at hrun
                obtain ⟨h1, h2, h3, h4⟩ := hrun
                subst h1
                subst h2
                subst h3
                subst h4
                rw [if_pos rfl] at hdn
                rw [hdn]
                try dsimp only
                try simp only [Option.map_some']
                try dsimp only
                rw [check_statefn_result_idem r2 hcs]
                rw [hcs]
                simp only [Option.map_none', Option.getD_none, Nat.zero_le, if_true,
                  Nat.sub_zero]
                have hlen0 : codes.length = index + 1 := by
                  rw [hrest] at hlen
                  simpa using hlen
                rw [feed_loop_at_end _ _ _ _ _ (by omega)]
                rw [hlen0]
              · rw [if_neg hrest] at hrun
                cases hrun
            | nok =>
              try dsimp only at hrun ⊢
              by_cases hrest : rest = []
              · rw [if_pos hrest] at hrun
                try dsimp only at hrun
                simp only [Option.some.injEq, Prod.mk.injEq] at hrun
                obtain ⟨h1, h2, h3, h4⟩ := hrun
                subst h1
                subst h2
                subst h3
                subst h4
                rw [if_neg Bool.false_ne_true] at hdn
                rw [hdn]
                try dsimp only
                try simp only [Option.map_some']
                try dsimp only
                rw [check_statefn_result_idem r2 hcs]
                rw [hcs]
                simp only [Option.map_none', Option.getD_none, Nat.zero_le, if_true,
                  Nat.sub_zero]
                have hlen0 : codes.length = index + 1 := by
                  rw [hrest] at hlen
                  simpa using hlen
                rw [feed_loop_at_end _ _ _ _ _ (by omega)]
                rw [hlen0]
              · rw [if_neg hrest] at hrun
                cases hrun
          · rw [if_neg hl2] at hrun
            cases hrun
        | none =>
          dsimp only at hrun ⊢
          cases nx with
          | ok =>
            try dsimp only at hrun ⊢
            by_cases hrest : rest = []
            · rw [if_pos hrest] at hrun
              try dsimp only at hrun
              simp only [Option.some.injEq, Prod.mk.injEq] at hrun
              obtain ⟨h1, h2, h3, h4⟩ := hrun
              subst h1
              subst h2
              subst h3
              subst h4
              rw [if_pos rfl] at hdn
              rw [hdn]
              try dsimp only
              try simp only [Option.map_some']
              try dsimp only
              rw [check_statefn_result_idem r2 hcs]
              rw [hcs]
              simp only [Option.map_none', Option.getD_none, Nat.zero_le, if_true,
                Nat.sub_zero]
              have hlen0 : codes.length = index + 1 := by
                rw [hrest] at hlen
                simpa using hlen
              rw [feed_loop_at_end _ _ _ _ _ (by omega)]
              rw [hlen0]
            · rw [if_neg hrest] at hrun
              cases hrun
          | nok =>
            try dsimp only at hrun ⊢
            by_cases hrest : rest = []
            · rw [if_pos hrest] at hrun
              try dsimp only at hrun
              simp only [Option.some.injEq, Prod.mk.injEq] at hrun
              obtain ⟨h1, h2, h3, h4⟩ := hrun
              subst h1
              subst h2
              subst h3
              subst h4
              rw [if_neg Bool.false_ne_true] at hdn
              rw [hdn]
              try dsimp only
              try simp only [Option.map_some']
              try dsimp only
              rw [check_statefn_result_idem r2 hcs]
              rw [hcs]
              simp only [Option.map_none', Option.getD_none, Nat.zero_le, if_true,
                Nat.sub_zero]
              have hlen0 : codes.length = index + 1 := by
                rw [hrest] at hlen
                simpa using hlen
              rw [feed_loop_at_end _ _ _ _ _ (by omega)]
              rw [hlen0]
            · rw [if_neg hrest] at hrun
              cases hrun
          | fn func =>
            try dsimp only at hrun ⊢
            cases fuelA with
            | zero =>
              have hrl : rest = [] := by
                have hz : rest.length = 0 := by simpa using hfa
                exact List.length_eq_zero.mp hz
              rw [hrl] at hrun
              simp [inner_run] at hrun
            | succ fA =>
              try dsimp only
              rw [check_statefn_result_none]
              simp only [Option.map_none', Option.getD_none, Nat.zero_le, if_true,
                Nat.sub_zero]
              exact ih codes (index + 1) fA fF func acc2 t2' dn okv tk t2 captured
                remaining r2 hdrop1 hrun hdn hcs (by simp at hfa; omega)
                (by simp at hff; omega)

/-- Applying a snapshot restores index, point, previous and current code
from it, truncates events and stack to the captured lengths, and leaves the
`consumed` flag exactly as the rolled-back state had it. -/
lemma free_restores (t0 tk t' : Tokenizer)
    (h : tk.free (Tokenizer.capture t0) = Option.some t') :
    t'.index = t0.index ∧ t'.point = t0.point ∧ t'.previous = t0.previous ∧
    t'.current = t0.current ∧ t'.events.length = t0.events.length ∧
    t'.stack.length = t0.stack.length ∧ t'.consumed = tk.consumed ∧
    t'.events = tk.events.take t0.events.length ∧
    t'.stack = tk.stack.take t0.stack.length := by
  unfold Tokenizer.free at h
  split_ifs at h with hc
  simp only [Tokenizer.capture] at h hc
  injection h with h
  subst h
  refine ⟨rfl, rfl, rfl, rfl, ?_, ?_, rfl, rfl, rfl⟩
  · simp only [List.length_take]
    omega
  · simp only [List.length_take]
    omega

/-- C1 (amended): for every attempt whose inner state function eventually
yields `Nok` (stated as an `inner_run` over the fed codes), the tokenizer
is rolled back by applying the snapshot captured at entry: codes index,
byte offset, line/column, previous code, current code, events length and
stack length are restored to the snapshot's values, and the whole feed of
the wrapped state equals feeding the captured codes to the `nok`
continuation from that rolled-back tokenizer (the pre-attempt position).
The `consumed` flag is NOT part of the snapshot and is not restored by the
rollback — it is set anew when the engine re-feeds the captured codes. -/
theorem c1_attempt_nok_rollback (fuel : Nat) (t0 t tk t' t2 : Tokenizer)
    (inner : StateFn) (done : Bool → StateFn) (codes captured : List Code)
    (s2 : State)
    (hrun : inner_run inner { t with consumed := true } codes []
      = Option.some (false, tk, captured, []))
    (hfree : tk.free (Tokenizer.capture t0) = Option.some t')
    (hcont : feed_impl fuel t' captured (done false) false
      = Option.some (t2, (s2, Option.none)))
    (hfuel : codes.length ≤ fuel) :
    (t'.index = t0.index ∧ t'.point = t0.point ∧ t'.previous = t0.previous ∧
      t'.current = t0.current ∧ t'.events.length = t0.events.length ∧
      t'.stack.length = t0.stack.length) ∧
    feed_impl fuel t codes ((Tokenizer.attempt fuel t0 inner done).2) false
      = Option.some (t2, (s2, Option.none)) := by
  obtain ⟨hi, hp, hpr, hcur, hevl, hstl, _, _, _⟩ := free_restores t0 tk t' hfree
  refine ⟨⟨hi, hp, hpr, hcur, hevl, hstl⟩, ?_⟩
  have hdn : attempt_done fuel (Tokenizer.capture t0) done (captured, []) false tk
      State.nok = Option.some (t2, (s2, Option.none)) := by
    unfold attempt_done
    rw [if_neg Bool.false_ne_true]
    rw [hfree]
    dsimp only
    rw [if_neg Bool.false_ne_true]
    exact hcont
  have hsim := attempt_run_sim codes codes 0 fuel fuel inner []
    { t with consumed := true }
    (attempt_done fuel (Tokenizer.capture t0) done)
    false tk t2 captured [] (s2, Option.none)
    (by simp) hrun hdn rfl (by omega) (by omega)
  unfold feed_impl
  unfold Tokenizer.attempt
  dsimp only
  rw [hsim]
  dsimp only
  rw [if_neg Bool.false_ne_true]
  rw [List.drop_length, check_statefn_result_nil]
  rfl

/-- Concrete tokenizer for the C1 counterexample: the snapshot is taken
mid-state, with the current code not yet consumed. -/
def c1ce_t0 : Tokenizer :=
  { (Tokenizer.new ⟨1, 1, 0⟩ 0) with consumed := false, current := Code.char 'a' }

/-- Inner recogniser for the C1 counterexample: consume the code, then
reject. -/
def c1ce_inner : StateFn := fun t code =>
  (t.consume code).map (fun t1 => (t1, (State.nok, Option.none)))

/-- Continuation for the C1 counterexample: accept immediately. -/
def c1ce_done : Bool → StateFn := fun _ => fun t code =>
  Option.some (t, (State.ok, Option.none))

/-- The tokenizer state at the moment the inner recogniser rejects. -/
def c1ce_tk : Tokenizer :=
  { c1ce_t0 with
      consumed := true
      previous := Code.char 'a'
      index := 1
      point := ⟨1, 2, 1⟩ }

/-- The rolled-back tokenizer: every snapshot field of `c1ce_t0`, but the
consumption flag as the failing state left it. -/
def c1ce_t' : Tokenizer := { c1ce_t0 with consumed := true }

/-- C1 counterexample: a real attempt path on which the rolled-back
tokenizer's consumption flag differs from its value at the snapshot.  The
snapshot is taken mid-state (`consumed = false`, the current code not yet
consumed, as when a state function calls `attempt` and invokes the returned
closure on the current code); the inner recogniser consumes the code and
then rejects; `free` restores every snapshot field but leaves
`consumed = true` as the failing state set it — so the flag is not restored
to the snapshot, refuting the claim at this input. -/
theorem c1_counterexample :
    c1ce_inner c1ce_t0 (Code.char 'a')
        = Option.some (c1ce_tk, (State.nok, Option.none))
      ∧ (attempt_impl 1 c1ce_inner (fun _ => false) []
          (attempt_done 1 (Tokenizer.capture c1ce_t0) c1ce_done)) c1ce_t0
          (Code.char 'a')
        = Option.some (c1ce_t0, (State.ok, Option.none))
      ∧ Tokenizer.free c1ce_tk (Tokenizer.capture c1ce_t0) = Option.some c1ce_t'
      ∧ c1ce_t0.consumed = false
      ∧ c1ce_t'.consumed = true :=
  ⟨rfl, rfl, rfl, rfl, rfl⟩

/-- C5: for every check whose inner state function eventually yields `Ok`
or `Nok` (stated as an `inner_run` over the fed codes, with the engine's
append-only discipline as the extension hypotheses on events and stack),
the tokenizer's events, stack and position are restored to the snapshot
captured at entry regardless of the outcome, and the whole feed of the
wrapped state equals feeding ALL captured codes to the `done` continuation
applied to just the boolean outcome, from the restored pre-check
tokenizer. -/
theorem c5_check_rollback (fuel : Nat) (t0 t tk t' t2 : Tokenizer)
    (inner : StateFn) (done : Bool → StateFn)
    (codes captured remaining : List Code) (okv : Bool)
    (evExt : List Event) (stExt : List TokenType) (s2 : State)
    (hrun : inner_run inner { t with consumed := true } codes []
      = Option.some (okv, tk, captured, remaining))
    (hev : tk.events = t0.events ++ evExt)
    (hst : tk.stack = t0.stack ++ stExt)
    (hfree : tk.free (Tokenizer.capture t0) = Option.some t')
    (hcont : feed_impl fuel t' captured (done okv) false
      = Option.some (t2, (s2, Option.none)))
    (hfuel : codes.length ≤ fuel) :
    (t'.events = t0.events ∧ t'.stack = t0.stack ∧ t'.point = t0.point ∧
      t'.index = t0.index ∧ t'.previous = t0.previous ∧ t'.current = t0.current) ∧
    feed_impl fuel t codes ((Tokenizer.check fuel t0 inner done).2) false
      = Option.some (t2, (s2, Option.none)) := by
  obtain ⟨hi, hp, hpr, hcur, hevl, hstl, _, hevt, hstt⟩ := free_restores t0 tk t' hfree
  have hev' : t'.events = t0.events := by
    rw [hevt, hev, List.take_left]
  have hst' : t'.stack = t0.stack := by
    rw [hstt, hst, List.take_left]
  refine ⟨⟨hev', hst', hp, hi, hpr, hcur⟩, ?_⟩
  have hdn : check_done fuel (Tokenizer.capture t0) done (captured, remaining) okv tk
      (if okv then State.ok else State.nok) = Option.some (t2, (s2, Option.none)) := by
    unfold check_done
    rw [hfree]
    exact hcont
  have hsim := attempt_run_sim codes codes 0 fuel fuel inner []
    { t with consumed := true }
    (check_done fuel (Tokenizer.capture t0) done)
    okv tk t2 captured remaining (s2, Option.none)
    (by simp) hrun hdn rfl (by omega) (by omega)
  unfold feed_impl
  unfold Tokenizer.check
  dsimp only
  rw [hsim]
  dsimp only
  rw [if_neg Bool.false_ne_true]
  rw [List.drop_length, check_statefn_result_nil]
  rfl

/-- Fresh tokenizer for the C1 witness. -/
def c1w_t0 : Tokenizer := Tokenizer.new ⟨1, 1, 0⟩ 0

/-- Inner recogniser for the C1 witness: consume the code, then reject. -/
def c1w_inner : StateFn := fun t code =>
  (t.consume code).map (fun t1 => (t1, (State.nok, Option.none)))

/-- Continuation for the C1 witness: consume the code, then accept. -/
def c1w_done : Bool → StateFn := fun _ => fun t code =>
  (t.consume code).map (fun t1 => (t1, (State.ok, Option.none)))

/-- The tokenizer after one consumed code, for the C1 witness. -/
def c1w_tk : Tokenizer :=
  { c1w_t0 with
      current := Code.char 'a'
      previous := Code.char 'a'
      index := 1
      point := ⟨1, 2, 1⟩ }

/-- C1 witness: the amended rollback property at a concrete one-code
attempt whose inner recogniser consumes and rejects. -/
theorem c1_attempt_nok_rollback_witness :
    (c1w_t0.index = c1w_t0.index ∧ c1w_t0.point = c1w_t0.point ∧
      c1w_t0.previous = c1w_t0.previous ∧ c1w_t0.current = c1w_t0.current ∧
      c1w_t0.events.length = c1w_t0.events.length ∧
      c1w_t0.stack.length = c1w_t0.stack.length) ∧
    feed_impl 2 c1w_t0 [Code.char 'a']
        ((Tokenizer.attempt 2 c1w_t0 c1w_inner c1w_done).2) false
      = Option.some (c1w_tk, (State.ok, Option.none)) :=
  c1_attempt_nok_rollback 2 c1w_t0 c1w_t0 c1w_tk c1w_t0 c1w_tk c1w_inner c1w_done
    [Code.char 'a'] [Code.char 'a'] State.ok rfl rfl rfl (by decide)

/-- Fresh tokenizer for the C5 witness. -/
def c5w_t0 : Tokenizer := Tokenizer.new ⟨1, 1, 0⟩ 0

/-- Inner recogniser for the C5 witness: consume the code, then accept. -/
def c5w_inner : StateFn := fun t code =>
  (t.consume code).map (fun t1 => (t1, (State.ok, Option.none)))

/-- Continuation for the C5 witness: consume the code, then accept. -/
def c5w_done : Bool → StateFn := fun _ => fun t code =>
  (t.consume code).map (fun t1 => (t1, (State.ok, Option.none)))

/-- The tokenizer after one consumed code, for the C5 witness. -/
def c5w_tk : Tokenizer :=
  { c5w_t0 with
      current := Code.char 'a'
      previous := Code.char 'a'
      index := 1
      point := ⟨1, 2, 1⟩ }

/-- C5 witness: the check rollback property at a concrete one-code check
whose inner recogniser consumes and accepts. -/
theorem c5_check_rollback_witness :
    (c5w_t0.events = c5w_t0.events ∧ c5w_t0.stack = c5w_t0.stack ∧
      c5w_t0.point = c5w_t0.point ∧ c5w_t0.index = c5w_t0.index ∧
      c5w_t0.previous = c5w_t0.previous ∧ c5w_t0.current = c5w_t0.current) ∧
    feed_impl 2 c5w_t0 [Code.char 'a']
        ((Tokenizer.check 2 c5w_t0 c5w_inner c5w_done).2) false
      = Option.some (c5w_tk, (State.ok, Option.none)) :=
  c5_check_rollback 2 c5w_t0 c5w_t0 c5w_tk c5w_t0 c5w_tk c5w_inner c5w_done
    [Code.char 'a'] [Code.char 'a'] [] true [] [] State.ok
    rfl rfl rfl rfl rfl (by decide)
